import Mathlib

/-!
Verification of the specalyzer build-tool detection logic.

The definitions below are a shallow embedding of the pure decision logic of
the repository: the build-tool classifier and version extraction of
src/specupVersion.js, the repository-URL helpers of src/repoUrl.js, the
source-object resolution of src/specConfig.js, and the URL normalizer of
src/fetcher.js. JavaScript objects parsed from JSON are modelled as
structures with Option fields (none = the field is absent / undefined),
dependency and script maps as association lists from names to strings, and
JavaScript string truthiness (undefined and the empty string are falsy) as
an explicit predicate.
-/

namespace Specalyzer

/-- JavaScript truthiness of an optional string value: undefined (none) and
the empty string are falsy, every other string is truthy. -/
def truthy : Option String → Bool
  | none => false
  | some s => !(s == "")

/-- Collapse an optional string to its JS-truthy content: none when the value
is absent or the empty string, otherwise the string itself. -/
def truthyStr : Option String → Option String
  | none => none
  | some s => if s == "" then none else some s

/-- Property read `m[k]` on an optional JS object modelled as an association
list; none when the object is absent or the key missing (undefined). -/
def jsGet (m : Option (List (String × String))) (k : String) : Option String :=
  match m with
  | none => none
  | some l => l.lookup k

/-- Property read followed by the truthiness collapse: the value of `m[k]`
when that value is truthy, none otherwise. -/
def truthyGet (m : Option (List (String × String))) (k : String) : Option String :=
  truthyStr (jsGet m k)

/-- Does the character list `hay` start with `pre`? -/
def listStartsWith : List Char → List Char → Bool
  | _, [] => true
  | [], _ :: _ => false
  | a :: as, b :: bs => a == b && listStartsWith as bs

/-- Does `needle` occur contiguously inside `hay`? -/
def containsSeq : List Char → List Char → Bool
  | [], needle => needle.isEmpty
  | a :: t, needle => listStartsWith (a :: t) needle || containsSeq t needle

/-- JavaScript `s.includes(sub)`. -/
def jsIncludes (s sub : String) : Bool :=
  containsSeq s.data sub.data

/-- The `repository` field of a package manifest: in JSON it is either a
plain string or an object carrying a `url` member. -/
inductive JsRepository where
  | str (s : String)
  | obj (url : Option String)
deriving DecidableEq

/-- A parsed package.json manifest. Every field is optional, as in JSON. -/
structure Package where
  name : Option String
  version : Option String
  dependencies : Option (List (String × String))
  devDependencies : Option (List (String × String))
  scripts : Option (List (String × String))
  repository : Option JsRepository
deriving DecidableEq

/-- The manifest with every field absent. -/
def emptyPkg : Package := ⟨none, none, none, none, none, none⟩

/-- A single-quote character, kept out of string literals. -/
def squote : String := String.mk [Char.ofNat 39]

/-- The script fingerprint of original spec-up used by isUsingSpecUp
(specupVersion.js line 120): the text  node -e "require(./index  with the
./index part wrapped in single quotes. -/
def specUpScriptFingerprint : String :=
  "node -e \"require(" ++ squote ++ "./index" ++ squote ++ ")"

/-- Method 2 of isUsingSpecUp (specupVersion.js lines 118-127): an `edit` or
`render` script whose truthy value contains the spec-up fingerprint. -/
def hasSpecUpScripts (scripts : Option (List (String × String))) : Bool :=
  match scripts with
  | none => false
  | some _ =>
    (truthy (jsGet scripts "edit") &&
      jsIncludes ((jsGet scripts "edit").getD "") specUpScriptFingerprint) ||
    (truthy (jsGet scripts "render") &&
      jsIncludes ((jsGet scripts "render").getD "") specUpScriptFingerprint)

/-- The core dependency check of method 3 (specupVersion.js lines 133-138):
markdown-it, gulp, markdown-it-anchor and markdown-it-attrs must all be
truthy entries of `dependencies`. -/
def hasSpecUpCoreDeps (deps : Option (List (String × String))) : Bool :=
  truthy (jsGet deps "markdown-it") &&
  truthy (jsGet deps "gulp") &&
  truthy (jsGet deps "markdown-it-anchor") &&
  truthy (jsGet deps "markdown-it-attrs")

/-- The fixed list of typical spec-up dependencies of method 3
(specupVersion.js lines 141-150). -/
def specUpTypicalDeps : List String :=
  ["markdown-it-chart", "markdown-it-container", "markdown-it-deflist",
   "markdown-it-icons", "markdown-it-ins", "markdown-it-mark",
   "markdown-it-modify-token", "markdown-it-multimd-table", "markdown-it-prism",
   "markdown-it-references", "markdown-it-sub", "markdown-it-sup",
   "markdown-it-task-lists", "markdown-it-textual-uml", "markdown-it-toc-and-anchor",
   "merge-stream", "pkg-dir", "prismjs", "yargs",
   "gulp-clean-css", "gulp-concat", "gulp-terser",
   "axios", "fs-extra"]

/-- How many names of the typical list are truthy entries of `dependencies`
(the counting loop of specupVersion.js lines 152-157). -/
def depMatchCount (deps : Option (List (String × String))) : Nat :=
  specUpTypicalDeps.countP (fun d => truthy (jsGet deps d))

/-- Method 4 of isUsingSpecUp (specupVersion.js lines 168-173): the
`repository` field is an object whose truthy url contains the spec-up
repository path. -/
def hasSpecUpRepoUrl (repo : Option JsRepository) : Bool :=
  match repo with
  | some (JsRepository.obj urlOpt) =>
    truthy urlOpt &&
    jsIncludes (urlOpt.getD "") "github.com/decentralized-identity/spec-up"
  | _ => false

/-- isUsingSpecUp (specupVersion.js lines 102-176). A null manifest is not
spec-up; a truthy spec-up-t dependency or devDependency is an authoritative
negative; then the name, script-fingerprint, dependency-pattern and
repository-URL heuristics fire in order. -/
def isUsingSpecUp : Option Package → Bool
  | none => false
  | some pkg =>
    if truthy (jsGet pkg.dependencies "spec-up-t") ||
       truthy (jsGet pkg.devDependencies "spec-up-t") then
      false
    else if pkg.name == some "spec-up" then
      true
    else if hasSpecUpScripts pkg.scripts then
      true
    else if hasSpecUpCoreDeps pkg.dependencies &&
            decide (10 ≤ depMatchCount pkg.dependencies) then
      true
    else
      hasSpecUpRepoUrl pkg.repository

/-- getSpecUpTVersionFromPackageJson (specupVersion.js lines 80-88): the JS
expression (deps && deps[depName]) || (devDeps && devDeps[depName]) || null,
which yields the first truthy entry or null. In the source depName is an
optional parameter defaulting to "spec-up-t"; every caller uses the default. -/
def getSpecUpTVersionFromPackageJson (pkg : Option Package) (depName : String) :
    Option String :=
  match pkg with
  | none => none
  | some p =>
    (truthyGet p.dependencies depName).orElse
      (fun _ => truthyGet p.devDependencies depName)

/-- Greedy match of the regex tail d+ . d+ . d+ at the start of `l`,
returning the matched text (the capture group of /\/v(\d+\.\d+\.\d+)/ in
specupVersion.js line 205). -/
def matchSemverTail (l : List Char) : Option String :=
  let d1 := l.takeWhile Char.isDigit
  let r1 := l.dropWhile Char.isDigit
  if d1.isEmpty then none else
  match r1 with
  | '.' :: r2 =>
    let d2 := r2.takeWhile Char.isDigit
    let r3 := r2.dropWhile Char.isDigit
    if d2.isEmpty then none else
    match r3 with
    | '.' :: r4 =>
      let d3 := r4.takeWhile Char.isDigit
      if d3.isEmpty then none else
      some (String.mk (d1 ++ '.' :: d2 ++ '.' :: d3))
    | _ => none
  | _ => none

/-- First match of the unanchored regex /\/v(\d+\.\d+\.\d+)/ in a character
list: attempt a match at each position from the left, as the JS regex engine
does, and return the capture group. -/
def findVersionTag : List Char → Option String
  | [] => none
  | '/' :: rest =>
    (match rest with
     | 'v' :: rest2 =>
       (match matchSemverTail rest2 with
        | some v => some v
        | none => findVersionTag rest)
     | _ => findVersionTag rest)
  | _ :: rest => findVersionTag rest

/-- The repository-url guard and regex match of getSpecUpVersionFromPackageJson
(specupVersion.js lines 199-209): the repository field must be an object
with a truthy url, in which url the version-tag pattern is searched. -/
def repoVersionTag (repo : Option JsRepository) : Option String :=
  match repo with
  | some (JsRepository.obj (some u)) =>
    if u == "" then none else findVersionTag u.data
  | _ => none

/-- getSpecUpVersionFromPackageJson (specupVersion.js lines 188-220): the
package version when the name is spec-up and the version truthy; else a
version tag found in a truthy repository.url; else the version prefixed with
a tilde when markdown-it and gulp are truthy dependencies and the version is
truthy; else null. -/
def getSpecUpVersionFromPackageJson : Option Package → Option String
  | none => none
  | some pkg =>
    if (pkg.name == some "spec-up") && truthy pkg.version then
      pkg.version
    else
      match repoVersionTag pkg.repository with
      | some v => some v
      | none =>
        if truthy (jsGet pkg.dependencies "markdown-it") &&
           truthy (jsGet pkg.dependencies "gulp") &&
           truthy pkg.version then
          pkg.version.map (fun v => "~" ++ v)
        else
          none

/-- Literal-prefix stripping on character lists: some rest when `pat` is a
prefix of `l`, none otherwise. -/
def dropLit : List Char → List Char → Option (List Char)
  | [], l => some l
  | _ :: _, [] => none
  | a :: as, b :: bs => if a == b then dropLit as bs else none

/-- The anchored regex of getRawPackageJsonUrls (specupVersion.js line 15):
^https:\/\/github.com\/([^\/]+)\/([^\/\.]+)(?:\.git)? . The dot of
github.com is not escaped in the source, so it matches any single
character; the two capture groups are returned. -/
def matchGithubRepoUrl (l : List Char) : Option (String × String) :=
  match dropLit "https://github".data l with
  | none => none
  | some rest =>
    match rest with
    | [] => none
    | _ :: rest2 =>
      match dropLit "com/".data rest2 with
      | none => none
      | some rest3 =>
        let org := rest3.takeWhile (fun c => !(c == '/'))
        let rest4 := rest3.dropWhile (fun c => !(c == '/'))
        if org.isEmpty then none else
        match rest4 with
        | '/' :: rest5 =>
          let repo := rest5.takeWhile (fun c => !(c == '/') && !(c == '.'))
          if repo.isEmpty then none else
          some (String.mk org, String.mk repo)
        | _ => none

/-- getRawPackageJsonUrls (specupVersion.js lines 12-26): the main-branch and
master-branch raw package.json URLs for a matching repository URL, null
otherwise. -/
def getRawPackageJsonUrls (repoUrl : String) : Option (List String) :=
  match matchGithubRepoUrl repoUrl.data with
  | none => none
  | some (org, repo) =>
    some ["https://raw.githubusercontent.com/" ++ org ++ "/" ++ repo ++
            "/main/package.json",
          "https://raw.githubusercontent.com/" ++ org ++ "/" ++ repo ++
            "/master/package.json"]

/-- The string-or-object union passed to the repoUrl.js helpers: a plain URL
string, or an object with host, account and repo members (each possibly
absent). -/
inductive RepoUrlInput where
  | str (s : String)
  | obj (host account repo : Option String)
deriving DecidableEq

/-- The `host` member; property access on a string yields undefined. -/
def RepoUrlInput.host : RepoUrlInput → Option String
  | .obj h _ _ => h
  | .str _ => none

/-- The `account` member; property access on a string yields undefined. -/
def RepoUrlInput.account : RepoUrlInput → Option String
  | .obj _ a _ => a
  | .str _ => none

/-- The `repo` member; property access on a string yields undefined. -/
def RepoUrlInput.repo : RepoUrlInput → Option String
  | .obj _ _ r => r
  | .str _ => none

/-- isGithubRepoObject (repoUrl.js lines 10-12): the value is an object and
its host member is strictly equal to the string github. -/
def isGithubRepoObject (repoUrl : RepoUrlInput) : Bool :=
  match repoUrl with
  | .obj h _ _ => h == some "github"
  | .str _ => false

/-- JS template-literal interpolation of a possibly-undefined string value:
undefined renders as the text undefined. -/
def jsInterp (o : Option String) : String := o.getD "undefined"

/-- getRepoUrlString (repoUrl.js lines 31-36): format a github object as
https://github.com/account/repo, return every other value unchanged. -/
def getRepoUrlString (repoUrl : RepoUrlInput) : RepoUrlInput :=
  if isGithubRepoObject repoUrl then
    RepoUrlInput.str ("https://github.com/" ++ jsInterp repoUrl.account ++ "/" ++
      jsInterp repoUrl.repo)
  else
    repoUrl

/-- Lower an ASCII capital letter, leave every other character alone. -/
def asciiLower (c : Char) : Char :=
  if 'A' ≤ c ∧ c ≤ 'Z' then Char.ofNat (c.toNat + 32) else c

/-- Character-wise ASCII lowering of a string (the embedding of the JS
toLowerCase call on the host names compared here, which are ASCII). -/
def asciiLowerStr (s : String) : String := String.mk (s.data.map asciiLower)

/-- The value of `window.specConfig.source`: a plain URL string, or an object
which may carry url, host, account and repo members. -/
inductive SpecConfigSource where
  | str (s : String)
  | obj (url host account repo : Option String)
deriving DecidableEq

/-- The source-resolution logic of extractRepoUrlFromSpecConfig
(specConfig.js lines 55-78), as a function of the extracted source value: a
string is returned as is; an object yields its truthy url member first, else
— when host, account and repo are all truthy and the lower-cased host is
github — the constructed GitHub URL; anything else yields null. -/
def resolveSpecConfigSource : SpecConfigSource → Option String
  | .str s => some s
  | .obj url host account repo =>
    match truthyStr url with
    | some u => some u
    | none =>
      if truthy host && truthy account && truthy repo then
        if asciiLowerStr (host.getD "") == "github" then
          some ("https://github.com/" ++ account.getD "" ++ "/" ++ repo.getD "")
        else none
      else none

/-- The whitespace class trimmed by the JS String.prototype.trim. -/
def jsWhitespace (c : Char) : Bool :=
  c == ' ' || c == '\t' || c == '\n' || c == '\r' ||
  c == Char.ofNat 11 || c == Char.ofNat 12 ||
  c == Char.ofNat 0xa0 || c == Char.ofNat 0x1680 ||
  (0x2000 ≤ c.toNat && c.toNat ≤ 0x200a) ||
  c == Char.ofNat 0x2028 || c == Char.ofNat 0x2029 ||
  c == Char.ofNat 0x202f || c == Char.ofNat 0x205f ||
  c == Char.ofNat 0x3000 || c == Char.ofNat 0xfeff

/-- JS String.prototype.trim: drop leading and trailing whitespace. -/
def jsTrim (s : String) : String :=
  String.mk (((s.data.dropWhile jsWhitespace).reverse.dropWhile jsWhitespace).reverse)

/-- The test of the regex /^https?:\/\//i (fetcher.js line 105): the string
starts, case-insensitively, with http:// or https://. -/
def hasHttpScheme (s : String) : Bool :=
  match s.data.map asciiLower with
  | 'h' :: 't' :: 't' :: 'p' :: rest =>
    listStartsWith rest [':', '/', '/'] ||
    (match rest with
     | 's' :: rest2 => listStartsWith rest2 [':', '/', '/']
     | _ => false)
  | _ => false

/-- The replace(/\/$/, ...) step (fetcher.js line 108): remove exactly one
trailing slash when one is present. -/
def stripTrailingSlash (s : String) : String :=
  match s.data.reverse with
  | '/' :: rest => String.mk rest.reverse
  | _ => s

/-- normalizeUrl (fetcher.js lines 103-109): trim, prepend https:// when no
case-insensitive http(s):// scheme is present, then strip one trailing
slash. -/
def normalizeUrl (str : String) : String :=
  stripTrailingSlash
    (if hasHttpScheme (jsTrim str) then jsTrim str else "https://" ++ jsTrim str)

/-- Step (a) of the version-resolution precedence as the spec words it, with
an empty-string version treated as absent: the manifest version when the
name equals spec-up. -/
def versionStepName (pkg : Package) : Option String :=
  if pkg.name = some "spec-up" then truthyStr pkg.version else none

/-- Step (b) of the version-resolution precedence as the spec words it: a
semantic-version tag of shape /v{major}.{minor}.{patch} found in the
repository.url string. -/
def versionStepRepoTag (pkg : Package) : Option String :=
  match pkg.repository with
  | some (JsRepository.obj (some u)) => findVersionTag u.data
  | _ => none

/-- Step (c) of the version-resolution precedence as the spec words it, with
an empty-string version treated as absent: the manifest version prefixed
with a tilde when markdown-it and gulp are both dependencies. -/
def versionStepApprox (pkg : Package) : Option String :=
  if truthy (jsGet pkg.dependencies "markdown-it") &&
     truthy (jsGet pkg.dependencies "gulp") then
    (truthyStr pkg.version).map (fun v => "~" ++ v)
  else none

/-- A manifest declaring spec-up-t with an ordinary caret range. -/
def pkgC1w : Package :=
  { emptyPkg with dependencies := some [("spec-up-t", "^1.0.8")] }

/-- A manifest named spec-up that declares spec-up-t with the empty-string
range. -/
def pkgC1c : Package :=
  { emptyPkg with name := some "spec-up",
                  dependencies := some [("spec-up-t", "")] }

/-- A dependency map holding the four core dependencies and exactly ten
names of the typical list. -/
def pkgC2aDeps : List (String × String) :=
  [("markdown-it", "12.0.0"), ("gulp", "4.0.2"),
   ("markdown-it-anchor", "5.3.0"), ("markdown-it-attrs", "4.0.0"),
   ("markdown-it-chart", "0.2.0"), ("markdown-it-container", "3.0.0"),
   ("markdown-it-deflist", "2.1.0"), ("markdown-it-icons", "0.4.1"),
   ("markdown-it-ins", "3.0.1"), ("markdown-it-mark", "3.0.1"),
   ("markdown-it-modify-token", "1.0.2"), ("markdown-it-multimd-table", "4.0.3"),
   ("markdown-it-prism", "2.1.8"), ("markdown-it-references", "1.0.0")]

/-- A manifest with the four core dependencies and exactly ten names of the
typical list. -/
def pkgC2a : Package :=
  { emptyPkg with dependencies := some pkgC2aDeps }

/-- A manifest named spec-up with an empty-string version field and a
repository url carrying a version tag. -/
def pkgC3c : Package :=
  { emptyPkg with name := some "spec-up", version := some "",
                  repository := some (JsRepository.obj
                    (some "https://github.com/decentralized-identity/spec-up/v1.2.3")) }

/-- A manifest that is not named spec-up, with a version and the
markdown-it and gulp dependencies. -/
def pkgC3w : Package :=
  { emptyPkg with name := some "my-spec", version := some "2.0.0",
                  dependencies := some [("markdown-it", "12.0.0"), ("gulp", "4.0.2")] }

/-- A manifest named spec-up at version 0.10.6 with no dependencies. -/
def pkgC4w : Package :=
  { emptyPkg with name := some "spec-up", version := some "0.10.6" }

/-- A manifest named spec-up at version 0.10.6 that also declares spec-up-t
as a dependency. -/
def pkgC4c : Package :=
  { emptyPkg with name := some "spec-up", version := some "0.10.6",
                  dependencies := some [("spec-up-t", "^1.0.8")] }

/-- A manifest named spec-up declaring spec-up-t with the empty-string range
and nothing else. -/
def pkgC10a : Package :=
  { emptyPkg with name := some "spec-up",
                  dependencies := some [("spec-up-t", "")] }

/-- A manifest declaring spec-up-t with the empty-string range under
dependencies and a caret range under devDependencies. -/
def pkgC10b : Package :=
  { emptyPkg with dependencies := some [("spec-up-t", "")],
                  devDependencies := some [("spec-up-t", "^1.0.8")] }

theorem truthyStr_of_truthy {o : Option String} (h : truthy o = true) :
    truthyStr o = o := by
  cases o with
  | none => simp [truthy] at h
  | some s =>
    simp only [truthy, Bool.not_eq_true'] at h
    simp [truthyStr, h]

theorem truthyStr_of_not_truthy {o : Option String} (h : truthy o = false) :
    truthyStr o = none := by
  cases o with
  | none => rfl
  | some s =>
    simp only [truthy, Bool.not_eq_false'] at h
    simp [truthyStr, h]

theorem truthy_of_get_some {m : Option (List (String × String))} {k : String}
    {s : String} (h : truthyGet m k = some s) : truthy (jsGet m k) = true := by
  unfold truthyGet at h
  cases hg : jsGet m k with
  | none => rw [hg] at h; simp [truthyStr] at h
  | some t =>
    rw [hg] at h
    simp only [truthyStr] at h
    split at h
    · exact absurd h (by simp)
    · simpa [truthy] using (by assumption : ¬(t == "") = true)

theorem truthy_of_get_none {m : Option (List (String × String))} {k : String}
    (h : truthyGet m k = none) : truthy (jsGet m k) = false := by
  unfold truthyGet at h
  cases hg : jsGet m k with
  | none => simp [truthy]
  | some t =>
    rw [hg] at h
    simp only [truthyStr] at h
    split at h
    · simpa [truthy] using (by assumption : (t == "") = true)
    · exact absurd h (by simp)

/-- Claim C1, amended: for every manifest that declares spec-up-t under
dependencies or devDependencies with a nonempty (truthy) version-range
string, the classifier returns the not-original-tool classification, and
getSpecUpTVersionFromPackageJson returns the declared range verbatim
(the dependencies entry when that one is truthy, else the devDependencies
entry), range prefixes included, regardless of any other manifest content. -/
theorem C1_theorem (pkg : Package) (s : String)
    (h : truthyGet pkg.dependencies "spec-up-t" = some s ∨
         (truthyGet pkg.dependencies "spec-up-t" = none ∧
          truthyGet pkg.devDependencies "spec-up-t" = some s)) :
    isUsingSpecUp (some pkg) = false ∧
    getSpecUpTVersionFromPackageJson (some pkg) "spec-up-t" = some s := by
  rcases h with h | ⟨h1, h2⟩
  · refine ⟨?_, ?_⟩
    · simp [isUsingSpecUp, truthy_of_get_some h]
    · simp [getSpecUpTVersionFromPackageJson, h, Option.orElse]
  · refine ⟨?_, ?_⟩
    · simp [isUsingSpecUp, truthy_of_get_none h1, truthy_of_get_some h2]
    · simp [getSpecUpTVersionFromPackageJson, h1, h2, Option.orElse]

/-- Claim C1, witness: a manifest declaring spec-up-t at range ^1.0.8 is
classified as not the original tool and the range is returned verbatim. -/
theorem C1_witness :
    truthyGet pkgC1w.dependencies "spec-up-t" = some "^1.0.8" ∧
    (isUsingSpecUp (some pkgC1w) = false ∧
     getSpecUpTVersionFromPackageJson (some pkgC1w) "spec-up-t" = some "^1.0.8") :=
  ⟨rfl, C1_theorem pkgC1w "^1.0.8" (Or.inl rfl)⟩

/-- Claim C1, counterexample to the claim as stated: a manifest that
declares spec-up-t under dependencies with the empty-string range and is
named spec-up is classified as the original tool, and the declared range is
not returned. -/
theorem C1_counterexample :
    isUsingSpecUp (some pkgC1c) = true ∧
    getSpecUpTVersionFromPackageJson (some pkgC1c) "spec-up-t" = none :=
  ⟨rfl, rfl⟩

/-- Claim C4, amended: for every manifest with name spec-up and version
0.10.6 that does not declare spec-up-t truthily under dependencies or
devDependencies, the classifier returns the original-tool classification
and the resolved version is 0.10.6. -/
theorem C4_theorem (pkg : Package)
    (h1 : pkg.name = some "spec-up")
    (h2 : pkg.version = some "0.10.6")
    (h3 : truthyGet pkg.dependencies "spec-up-t" = none)
    (h4 : truthyGet pkg.devDependencies "spec-up-t" = none) :
    isUsingSpecUp (some pkg) = true ∧
    getSpecUpVersionFromPackageJson (some pkg) = some "0.10.6" := by
  refine ⟨?_, ?_⟩
  · simp [isUsingSpecUp, truthy_of_get_none h3, truthy_of_get_none h4, h1]
  · simp [getSpecUpVersionFromPackageJson, h1, h2, truthy]

/-- Claim C4, witness: the plain spec-up 0.10.6 manifest is classified as
the original tool at version 0.10.6. -/
theorem C4_witness :
    isUsingSpecUp (some pkgC4w) = true ∧
    getSpecUpVersionFromPackageJson (some pkgC4w) = some "0.10.6" :=
  C4_theorem pkgC4w rfl rfl rfl rfl

/-- Claim C4, counterexample to the claim as stated: a manifest with name
spec-up and version 0.10.6 that also declares spec-up-t is classified as
NOT the original tool, because the explicit dependency check precedes the
name match. -/
theorem C4_counterexample : isUsingSpecUp (some pkgC4c) = false := rfl

/-- Claim C5, amended: getRepoUrlString formats an object whose host is
exactly github as https://github.com/account/repo (a missing account or
repo member renders as the text undefined); every other value — an object
with any other host, or a plain string — is returned unchanged rather than
as null. -/
theorem C5_theorem :
    (∀ a r : String,
      getRepoUrlString (RepoUrlInput.obj (some "github") (some a) (some r)) =
        RepoUrlInput.str ("https://github.com/" ++ a ++ "/" ++ r)) ∧
    (∀ x : RepoUrlInput, isGithubRepoObject x = false → getRepoUrlString x = x) := by
  refine ⟨?_, ?_⟩
  · intro a r
    simp [getRepoUrlString, isGithubRepoObject, jsInterp, RepoUrlInput.account,
      RepoUrlInput.repo]
  · intro x h
    simp [getRepoUrlString, h]

/-- Claim C5, witness: a plain string input is passed through unchanged. -/
theorem C5_witness :
    getRepoUrlString (RepoUrlInput.str "https://example.org/repo") =
      RepoUrlInput.str "https://example.org/repo" :=
  C5_theorem.2 (RepoUrlInput.str "https://example.org/repo") rfl

/-- Claim C5, counterexample to the claim as stated: the gitlab object is
returned unchanged (not null), and a github object with missing fields
yields a string with undefined segments (not null). -/
theorem C5_counterexample :
    getRepoUrlString (RepoUrlInput.obj (some "gitlab") (some "foo") (some "bar")) =
      RepoUrlInput.obj (some "gitlab") (some "foo") (some "bar") ∧
    getRepoUrlString (RepoUrlInput.obj (some "github") none none) =
      RepoUrlInput.str "https://github.com/undefined/undefined" :=
  ⟨rfl, rfl⟩

/-- Claim C6: getRawPackageJsonUrls yields exactly the main-then-master
candidate pair for a GitHub repository URL, and null for a typical
non-GitHub URL; but because the dot of github.com is unescaped in the
source regex, the non-GitHub URL https://githubxcom/foo/bar also yields
the candidate pair, contradicting the claim and the function's own doc
comment. -/
theorem C6_theorem :
    getRawPackageJsonUrls "https://github.com/foo/bar.git" =
      some ["https://raw.githubusercontent.com/foo/bar/main/package.json",
            "https://raw.githubusercontent.com/foo/bar/master/package.json"] ∧
    getRawPackageJsonUrls "https://gitlab.com/foo/bar" = none ∧
    getRawPackageJsonUrls "https://githubxcom/foo/bar" =
      some ["https://raw.githubusercontent.com/foo/bar/main/package.json",
            "https://raw.githubusercontent.com/foo/bar/master/package.json"] :=
  ⟨rfl, rfl, rfl⟩

/-- Claim C10: the spec-up-t dependency checks test truthiness, not key
presence: an empty-string range under dependencies is skipped, so
getSpecUpTVersionFromPackageJson falls through to the devDependencies entry
or null, and a manifest declaring spec-up-t with the empty-string range can
still be classified as the original tool by the later name heuristic. -/
theorem C10_theorem :
    (∀ pkg : Package, jsGet pkg.dependencies "spec-up-t" = some "" →
      getSpecUpTVersionFromPackageJson (some pkg) "spec-up-t" =
        truthyGet pkg.devDependencies "spec-up-t") ∧
    isUsingSpecUp (some pkgC10a) = true ∧
    getSpecUpTVersionFromPackageJson (some pkgC10a) "spec-up-t" = none ∧
    getSpecUpTVersionFromPackageJson (some pkgC10b) "spec-up-t" = some "^1.0.8" := by
  refine ⟨?_, rfl, rfl, rfl⟩
  intro pkg h
  simp [getSpecUpTVersionFromPackageJson, truthyGet, truthyStr, h, Option.orElse]

/-- Claim C10, witness: applied to the concrete empty-range manifest. -/
theorem C10_witness :
    getSpecUpTVersionFromPackageJson (some pkgC10a) "spec-up-t" =
      truthyGet pkgC10a.devDependencies "spec-up-t" :=
  C10_theorem.1 pkgC10a rfl

/-- Claim C2: with no truthy spec-up-t dependency, a name other than
spec-up and no matching edit or render script, a manifest whose
dependencies pass the core check and match at least ten names of the
typical list is classified as the original tool; with only nine matches
and no spec-up repository url it is not. -/
theorem C2_theorem :
    (∀ pkg : Package,
      truthyGet pkg.dependencies "spec-up-t" = none →
      truthyGet pkg.devDependencies "spec-up-t" = none →
      pkg.name ≠ some "spec-up" →
      hasSpecUpScripts pkg.scripts = false →
      hasSpecUpCoreDeps pkg.dependencies = true →
      10 ≤ depMatchCount pkg.dependencies →
      isUsingSpecUp (some pkg) = true) ∧
    (∀ pkg : Package,
      truthyGet pkg.dependencies "spec-up-t" = none →
      truthyGet pkg.devDependencies "spec-up-t" = none →
      pkg.name ≠ some "spec-up" →
      hasSpecUpScripts pkg.scripts = false →
      hasSpecUpCoreDeps pkg.dependencies = true →
      depMatchCount pkg.dependencies = 9 →
      hasSpecUpRepoUrl pkg.repository = false →
      isUsingSpecUp (some pkg) = false) := by
  refine ⟨?_, ?_⟩
  · intro pkg h1 h2 h3 h4 h5 h6
    simp [isUsingSpecUp, truthy_of_get_none h1, truthy_of_get_none h2, h3, h4, h5, h6]
  · intro pkg h1 h2 h3 h4 h5 h6 h7
    simp [isUsingSpecUp, truthy_of_get_none h1, truthy_of_get_none h2, h3, h4, h5, h6, h7]

/-- Claim C2, witness: the concrete manifest with the four core
dependencies and exactly ten typical matches is classified as the original
tool. -/
theorem C2_witness : isUsingSpecUp (some pkgC2a) = true :=
  C2_theorem.1 pkgC2a rfl rfl (by decide) rfl rfl (by decide)

/-- Claim C7: normalizeUrl, on an already-trimmed input, prepends https://
exactly when no case-insensitive http(s):// scheme is present and then
strips exactly one trailing slash; the two concrete examples of the spec
evaluate as claimed, the second with its scheme casing preserved and no
second scheme added. -/
theorem C7_theorem :
    (∀ s : String, jsTrim s = s → hasHttpScheme s = false →
      normalizeUrl s = stripTrailingSlash ("https://" ++ s)) ∧
    (∀ s : String, jsTrim s = s → hasHttpScheme s = true →
      normalizeUrl s = stripTrailingSlash s) ∧
    normalizeUrl "example.com/spec/" = "https://example.com/spec" ∧
    hasHttpScheme "HTTP://X.com" = true ∧
    normalizeUrl "HTTP://X.com" = "HTTP://X.com" := by
  refine ⟨?_, ?_, by decide, by decide, by decide⟩
  · intro s h1 h2
    simp [normalizeUrl, h1, h2]
  · intro s h1 h2
    simp [normalizeUrl, h1, h2]

/-- Claim C7, witness: applied to a concrete unschemed, untrimmable
input. -/
theorem C7_witness :
    normalizeUrl "example.com" = stripTrailingSlash ("https://" ++ "example.com") :=
  C7_theorem.1 "example.com" (by decide) (by decide)

/-- Claim C9: the config extractor resolves a structured source by
returning a truthy url member first, before the host, account and repo
members are examined; its host comparison lower-cases the host, so GitHub
and GITHUB are accepted, while isGithubRepoObject of repoUrl.js rejects
GitHub; with all three members truthy and a host lowering to github the
constructed GitHub URL is returned, and every other object shape yields
null. -/
theorem C9_theorem :
    (∀ (u : String) (h a r : Option String), u ≠ "" →
      resolveSpecConfigSource (SpecConfigSource.obj (some u) h a r) = some u) ∧
    (∀ host account repo : String, host ≠ "" → account ≠ "" → repo ≠ "" →
      asciiLowerStr host = "github" →
      resolveSpecConfigSource
          (SpecConfigSource.obj none (some host) (some account) (some repo)) =
        some ("https://github.com/" ++ account ++ "/" ++ repo)) ∧
    (∀ host account repo : String, host ≠ "" → account ≠ "" → repo ≠ "" →
      asciiLowerStr host ≠ "github" →
      resolveSpecConfigSource
          (SpecConfigSource.obj none (some host) (some account) (some repo)) = none) ∧
    (∀ h a r : Option String, (truthy h && truthy a && truthy r) = false →
      resolveSpecConfigSource (SpecConfigSource.obj none h a r) = none) ∧
    resolveSpecConfigSource
        (SpecConfigSource.obj none (some "GitHub") (some "foo") (some "bar")) =
      some "https://github.com/foo/bar" ∧
    resolveSpecConfigSource
        (SpecConfigSource.obj none (some "GITHUB") (some "foo") (some "bar")) =
      some "https://github.com/foo/bar" ∧
    isGithubRepoObject (RepoUrlInput.obj (some "GitHub") (some "foo") (some "bar")) =
      false := by
  refine ⟨?_, ?_, ?_, ?_, by decide, by decide, by decide⟩
  · intro u h a r hu
    simp [resolveSpecConfigSource, truthyStr, hu]
  · intro host account repo h1 h2 h3 h4
    simp [resolveSpecConfigSource, truthyStr, truthy, h1, h2, h3, h4]
  · intro host account repo h1 h2 h3 h4
    simp [resolveSpecConfigSource, truthyStr, truthy, h1, h2, h3, h4]
  · intro h a r hf
    simp [resolveSpecConfigSource, truthyStr, hf]

/-- Claim C9, witness: a structured source with a url member resolves to
that url whatever the other members hold. -/
theorem C9_witness :
    resolveSpecConfigSource
        (SpecConfigSource.obj (some "https://example.org/x") (some "gitlab")
          none none) =
      some "https://example.org/x" :=
  C9_theorem.1 "https://example.org/x" (some "gitlab") none none (by decide)

theorem versionStepRepoTag_eq_repoVersionTag (pkg : Package) :
    versionStepRepoTag pkg = repoVersionTag pkg.repository := by
  unfold versionStepRepoTag repoVersionTag
  rcases pkg.repository with _ | (s | (_ | u))
  · rfl
  · rfl
  · rfl
  · by_cases hu : u = ""
    · subst hu; rfl
    · simp [hu]

theorem approxBranchEq (pkg : Package) :
    (if truthy (jsGet pkg.dependencies "markdown-it") &&
        truthy (jsGet pkg.dependencies "gulp") &&
        truthy pkg.version then
       pkg.version.map (fun v => "~" ++ v)
     else none) = versionStepApprox pkg := by
  by_cases h1 : truthy (jsGet pkg.dependencies "markdown-it") = true
  · by_cases h2 : truthy (jsGet pkg.dependencies "gulp") = true
    · by_cases h3 : truthy pkg.version = true
      · simp [versionStepApprox, h1, h2, h3, truthyStr_of_truthy h3]
      · have h3' : truthy pkg.version = false := by simpa using h3
        simp [versionStepApprox, h1, h2, h3', truthyStr_of_not_truthy h3']
    · have h2' : truthy (jsGet pkg.dependencies "gulp") = false := by simpa using h2
      simp [versionStepApprox, h1, h2']
  · have h1' : truthy (jsGet pkg.dependencies "markdown-it") = false := by simpa using h1
    simp [versionStepApprox, h1']

/-- Claim C3, amended: once classified as the original tool, version
resolution follows the ordered precedence name-match version, then
repository-url tag, then tilde-prefixed version under the markdown-it and
gulp signature, then null — where the first truthy (non-null and nonempty)
candidate wins: an empty-string version field or repository url is treated
as absent rather than as a winning non-null value. -/
theorem C3_theorem (pkg : Package) :
    getSpecUpVersionFromPackageJson (some pkg) =
      (versionStepName pkg).orElse (fun _ =>
        (versionStepRepoTag pkg).orElse (fun _ => versionStepApprox pkg)) := by
  rw [versionStepRepoTag_eq_repoVersionTag]
  by_cases hn : pkg.name = some "spec-up"
  · by_cases hv : truthy pkg.version = true
    · obtain ⟨v, hveq⟩ : ∃ v, pkg.version = some v := by
        cases h : pkg.version
        · rw [h] at hv; simp [truthy] at hv
        · exact ⟨_, rfl⟩
      have hv2 : truthy (some v) = true := by rw [← hveq]; exact hv
      have hvne : (v == "") = false := by simpa [truthy] using hv2
      simp [getSpecUpVersionFromPackageJson, versionStepName, hn, hveq, hv2,
        truthyStr, hvne, Option.orElse]
    · have hv' : truthy pkg.version = false := by simpa using hv
      have hcn : ¬(((pkg.name == some "spec-up") && truthy pkg.version) = true) := by
        simp [hv']
      have hA : versionStepName pkg = none := by
        simp [versionStepName, hn, truthyStr_of_not_truthy hv']
      simp only [getSpecUpVersionFromPackageJson]
      rw [if_neg hcn, hA]
      cases hB : repoVersionTag pkg.repository with
      | some t => rfl
      | none => exact approxBranchEq pkg
  · have hn' : (pkg.name == some "spec-up") = false := by simpa using hn
    have hcn : ¬(((pkg.name == some "spec-up") && truthy pkg.version) = true) := by
      simp [hn']
    have hA : versionStepName pkg = none := by simp [versionStepName, hn]
    simp only [getSpecUpVersionFromPackageJson]
    rw [if_neg hcn, hA]
    cases hB : repoVersionTag pkg.repository with
    | some t => rfl
    | none => exact approxBranchEq pkg

/-- Claim C3, witness: the precedence equation applied to a concrete
manifest carrying the markdown-it and gulp signature. -/
theorem C3_witness :
    getSpecUpVersionFromPackageJson (some pkgC3w) =
      (versionStepName pkgC3w).orElse (fun _ =>
        (versionStepRepoTag pkgC3w).orElse (fun _ => versionStepApprox pkgC3w)) :=
  C3_theorem pkgC3w

/-- Claim C3, counterexample to the claim as stated: a manifest named
spec-up whose version field is the empty string (non-null) and whose
repository url carries the tag v1.2.3 resolves to 1.2.3, not to the
non-null version field that precedence step (a) would select. -/
theorem C3_counterexample :
    pkgC3c.name = some "spec-up" ∧ pkgC3c.version = some "" ∧
    getSpecUpVersionFromPackageJson (some pkgC3c) = some "1.2.3" :=
  ⟨rfl, rfl, rfl⟩

end Specalyzer
